import Mathlib

/-!
Verification of the `tdyne_peer_id` crate: a newtype `PeerId` over `[u8; 20]`
with an infallible constructor from 20-byte arrays, a fallible constructor
from byte slices, a borrow accessor, a sanitising renderer `to_safe`, a
`Display` implementation delegating to `to_safe`, and a length-mismatch
error type `BadPeerIdLengthError`.

Bytes are modelled as `Nat` (values of `u8` are below 256; no arithmetic in
this crate overflows, the only byte arithmetic is UTF-8 decoding which is
guarded by range tests). Strings are modelled as `List Char` where the
character-level structure matters, and as `String` for the error message.
-/

namespace TdynePeerId

/-- The Unicode replacement character U+FFFD emitted by lossy UTF-8 decoding. -/
def repl : Char := Char.ofNat 0xFFFD

/-- Is `b` a UTF-8 continuation byte (`0x80..=0xBF`)? -/
def isCont (b : Nat) : Bool := decide (0x80 ≤ b ∧ b ≤ 0xBF)

/-- Valid second byte for a three-byte sequence with lead byte `b0`
(`0xE0` requires `0xA0..=0xBF`, `0xED` requires `0x80..=0x9F`,
other leads `0xE1..=0xEF` take any continuation byte). -/
def cont3ok (b0 b1 : Nat) : Bool :=
  if b0 = 0xE0 then decide (0xA0 ≤ b1 ∧ b1 ≤ 0xBF)
  else if b0 = 0xED then decide (0x80 ≤ b1 ∧ b1 ≤ 0x9F)
  else isCont b1

/-- Valid second byte for a four-byte sequence with lead byte `b0`
(`0xF0` requires `0x90..=0xBF`, `0xF4` requires `0x80..=0x8F`,
leads `0xF1..=0xF3` take any continuation byte). -/
def cont4ok (b0 b1 : Nat) : Bool :=
  if b0 = 0xF0 then decide (0x90 ≤ b1 ∧ b1 ≤ 0xBF)
  else if b0 = 0xF4 then decide (0x80 ≤ b1 ∧ b1 ≤ 0x8F)
  else isCont b1

/-- Lossy UTF-8 decoding of a byte sequence into characters, following
`String::from_utf8_lossy`: maximal valid sequences decode to their scalar
value, each maximal invalid subpart (per the error lengths of
`core::str::from_utf8`) becomes one replacement character, and a truncated
sequence at the end of the input becomes one replacement character. -/
def utf8DecodeLossy : List Nat → List Char
  | [] => []
  | b0 :: rest =>
    if b0 < 0x80 then
      Char.ofNat b0 :: utf8DecodeLossy rest
    else if 0xC2 ≤ b0 ∧ b0 ≤ 0xDF then
      match rest with
      | [] => [repl]
      | b1 :: rest1 =>
        if isCont b1 then
          Char.ofNat ((b0 - 0xC0) * 0x40 + (b1 - 0x80)) :: utf8DecodeLossy rest1
        else repl :: utf8DecodeLossy (b1 :: rest1)
    else if 0xE0 ≤ b0 ∧ b0 ≤ 0xEF then
      match rest with
      | [] => [repl]
      | b1 :: rest1 =>
        if cont3ok b0 b1 then
          match rest1 with
          | [] => [repl]
          | b2 :: rest2 =>
            if isCont b2 then
              Char.ofNat ((b0 - 0xE0) * 0x1000 + (b1 - 0x80) * 0x40 + (b2 - 0x80)) ::
                utf8DecodeLossy rest2
            else repl :: utf8DecodeLossy (b2 :: rest2)
        else repl :: utf8DecodeLossy (b1 :: rest1)
    else if 0xF0 ≤ b0 ∧ b0 ≤ 0xF4 then
      match rest with
      | [] => [repl]
      | b1 :: rest1 =>
        if cont4ok b0 b1 then
          match rest1 with
          | [] => [repl]
          | b2 :: rest2 =>
            if isCont b2 then
              match rest2 with
              | [] => [repl]
              | b3 :: rest3 =>
                if isCont b3 then
                  Char.ofNat
                      ((b0 - 0xF0) * 0x40000 + (b1 - 0x80) * 0x1000 +
                        (b2 - 0x80) * 0x40 + (b3 - 0x80)) ::
                    utf8DecodeLossy rest3
                else repl :: utf8DecodeLossy (b3 :: rest3)
            else repl :: utf8DecodeLossy (b2 :: rest2)
        else repl :: utf8DecodeLossy (b1 :: rest1)
    else
      repl :: utf8DecodeLossy rest

/-- `PeerId` wraps exactly 20 bytes (`pub struct PeerId(pub [u8; 20])`). -/
structure PeerId where
  bytes : List Nat
  len_eq : bytes.length = 20

/-- A 20-byte array, the argument type of the infallible constructors
(`[u8; 20]` and `&[u8; 20]`). -/
structure Array20 where
  data : List Nat
  len_eq : data.length = 20

/-- The traits listed in the derive attribute on `PeerId` in the source. -/
def PeerId.derivedTraits : List String := ["Debug", "Clone", "Copy"]

/-- The traits listed in the derive attribute on `BadPeerIdLengthError`. -/
def badPeerIdLengthErrorDerivedTraits : List String :=
  ["Debug", "Clone", "Copy", "Eq", "PartialEq"]

/-- `impl From<[u8; 20]> for PeerId`: wraps the array. -/
def PeerId.from20 (value : Array20) : PeerId := ⟨value.data, value.len_eq⟩

/-- `impl From<&[u8; 20]> for PeerId`: copies (`to_owned`) and wraps the array. -/
def PeerId.from_ref (value : Array20) : PeerId := ⟨value.data, value.len_eq⟩

/-- `impl AsRef<[u8; 20]> for PeerId`: exposes the wrapped bytes. -/
def PeerId.as_ref (p : PeerId) : Array20 := ⟨p.bytes, p.len_eq⟩

/-- The error type of the fallible constructor
(`pub struct BadPeerIdLengthError(pub usize)`). -/
structure BadPeerIdLengthError where
  length : Nat
deriving DecidableEq

/-- `impl TryFrom<&[u8]> for PeerId`: succeeds exactly when the slice has
length 20, otherwise returns `BadPeerIdLengthError(value.len())`. -/
def PeerId.try_from (value : List Nat) : Except BadPeerIdLengthError PeerId :=
  if h : value.length = 20 then Except.ok ⟨value, h⟩
  else Except.error ⟨value.length⟩

/-- The allow-set test of `to_safe`, matching the Rust range patterns
`'a'..='z' | 'A'..='Z' | '0'..='9' | '-' | '.'` (char ranges compare code
points). -/
def allowedChar (c : Char) : Bool :=
  decide ((0x61 ≤ c.toNat ∧ c.toNat ≤ 0x7A) ∨ (0x41 ≤ c.toNat ∧ c.toNat ≤ 0x5A) ∨
    (0x30 ≤ c.toNat ∧ c.toNat ≤ 0x39) ∨ c.toNat = 0x2D ∨ c.toNat = 0x2E)

/-- The per-character mapping of `to_safe`: characters in the allow-set pass
through, everything else becomes `?`. -/
def safeChar (c : Char) : Char := if allowedChar c then c else '?'

/-- `PeerId::to_safe`: lossy UTF-8 decoding of the 20 bytes, then each
character outside the allow-set replaced by `?`. -/
def PeerId.to_safe (p : PeerId) : List Char :=
  (utf8DecodeLossy p.bytes).map safeChar

/-- `impl Display for PeerId`: writes exactly `to_safe`. -/
def PeerId.display (p : PeerId) : List Char := p.to_safe

/-- `impl Display for BadPeerIdLengthError`: the fixed message with the
stored length interpolated. -/
def BadPeerIdLengthError.display (e : BadPeerIdLengthError) : String :=
  "Invalid Peer Id length, expected a 20 bytes long slice, got " ++
    Nat.repr e.length ++ " bytes"

/-- The byte-level version of the allow-set, for ASCII bytes. -/
def allowedByte (b : Nat) : Bool :=
  decide ((0x61 ≤ b ∧ b ≤ 0x7A) ∨ (0x41 ≤ b ∧ b ≤ 0x5A) ∨
    (0x30 ≤ b ∧ b ≤ 0x39) ∨ b = 0x2D ∨ b = 0x2E)

/-- The all-zero peer ID from scenario S3 of the spec. -/
def zeroPeerId : PeerId := ⟨List.replicate 20 0, by decide⟩

/-- A peer ID consisting of five valid four-byte UTF-8 sequences
(each encoding U+10000), used to show the rendering is not 20 characters
long for every input. -/
def fourBytePeerId : PeerId :=
  ⟨[0xF0, 0x90, 0x80, 0x80, 0xF0, 0x90, 0x80, 0x80, 0xF0, 0x90, 0x80, 0x80,
    0xF0, 0x90, 0x80, 0x80, 0xF0, 0x90, 0x80, 0x80], by decide⟩

lemma PeerId.eq_iff_bytes {a b : PeerId} : a = b ↔ a.bytes = b.bytes := by
  cases a with
  | mk xs hx =>
    cases b with
    | mk ys hy =>
      constructor
      · intro h
        cases h
        rfl
      · intro h
        simp only at h
        subst h
        rfl

lemma Array20.eq_iff_data {a b : Array20} : a = b ↔ a.data = b.data := by
  cases a with
  | mk xs hx =>
    cases b with
    | mk ys hy =>
      constructor
      · intro h
        cases h
        rfl
      · intro h
        simp only at h
        subst h
        rfl

example : utf8DecodeLossy [0x41, 0x00, 0x2A] = ['A', '\x00', '*'] := by decide

example :
    (PeerId.from20 ⟨[0x2D, 0x54, 0x52, 0x30, 0x30, 0x30, 0x30, 0x2D, 0x2A, 0x00,
      0x01, 0x64, 0x37, 0x78, 0x6B, 0x71, 0x71, 0x30, 0x34, 0x6E], by decide⟩).to_safe =
      "-TR0000-???d7xkqq04n".toList := by decide

lemma toNat_ofNat_valid {n : Nat} (h : n.isValidChar) : (Char.ofNat n).toNat = n := by
  rw [Char.ofNat, dif_pos h]
  rfl

lemma isValidChar_of_lt_128 {n : Nat} (h : n < 0x80) : n.isValidChar :=
  Or.inl (by omega)

lemma utf8DecodeLossy_ascii (l : List Nat) (h : ∀ b ∈ l, b < 0x80) :
    utf8DecodeLossy l = l.map Char.ofNat := by
  induction l with
  | nil => rfl
  | cons b rest ih =>
    have hb : b < 0x80 := h b (List.mem_cons_self b rest)
    rw [utf8DecodeLossy.eq_def]
    simp only [if_pos hb, List.map_cons, List.cons.injEq, true_and]
    exact ih fun x hx => h x (List.mem_cons_of_mem b hx)

lemma allowedByte_imp_allowedChar {b : Nat} (h : allowedByte b = true) :
    allowedChar (Char.ofNat b) = true := by
  have hb : b < 0x80 := by
    unfold allowedByte at h
    simp only [decide_eq_true_eq] at h
    omega
  have ht : (Char.ofNat b).toNat = b :=
    toNat_ofNat_valid (isValidChar_of_lt_128 hb)
  unfold allowedChar
  rw [ht]
  unfold allowedByte at h
  exact h

/-- C1: every character of the safe rendering lies in the set
consisting of the allow-set and the placeholder `?`. -/
theorem to_safe_chars_in_set (p : PeerId) :
    ∀ c ∈ p.to_safe, allowedChar c = true ∨ c = '?' := by
  intro c hc
  rcases List.mem_map.mp hc with ⟨c0, _, rfl⟩
  unfold safeChar
  by_cases h : allowedChar c0 = true
  · rw [if_pos h]
    exact Or.inl h
  · rw [if_neg h]
    exact Or.inr rfl

/-- Witness for C1: the placeholder occurs in the rendering of the all-zero
peer ID and satisfies the membership property. -/
theorem to_safe_chars_in_set_witness :
    '?' ∈ zeroPeerId.to_safe ∧ (allowedChar '?' = true ∨ '?' = '?') :=
  ⟨by decide, to_safe_chars_in_set zeroPeerId '?' (by decide)⟩

/-- C5: on a peer ID whose bytes all lie in the allow-set read as ASCII,
the safe rendering is exactly the ASCII decoding of the bytes. -/
theorem to_safe_identity_on_allowed (p : PeerId)
    (h : ∀ b ∈ p.bytes, allowedByte b = true) :
    p.to_safe = p.bytes.map Char.ofNat := by
  have hlt : ∀ b ∈ p.bytes, b < 0x80 := by
    intro b hb
    have hab := h b hb
    unfold allowedByte at hab
    simp only [decide_eq_true_eq] at hab
    omega
  unfold PeerId.to_safe
  rw [utf8DecodeLossy_ascii p.bytes hlt, List.map_map]
  apply List.map_congr_left
  intro b hb
  have hac : allowedChar (Char.ofNat b) = true :=
    allowedByte_imp_allowedChar (h b hb)
  simp only [Function.comp_apply, safeChar, if_pos hac]

/-- Witness for C5: a peer ID of twenty full stops renders to itself. -/
theorem to_safe_identity_on_allowed_witness :
    (∀ b ∈ (PeerId.mk (List.replicate 20 0x2E) (by decide)).bytes,
        allowedByte b = true) ∧
      (PeerId.mk (List.replicate 20 0x2E) (by decide)).to_safe =
        (List.replicate 20 0x2E).map Char.ofNat :=
  ⟨by decide,
    to_safe_identity_on_allowed ⟨List.replicate 20 0x2E, by decide⟩ (by decide)⟩

/-- C7: the safe rendering has exactly as many characters as the lossy
UTF-8 decoding of the bytes; the all-zero peer ID renders to twenty `?`
characters; and the rendering of a peer ID made of five four-byte UTF-8
sequences has five characters, so the output is not always 20 characters. -/
theorem to_safe_char_count (p : PeerId) :
    p.to_safe.length = (utf8DecodeLossy p.bytes).length ∧
      zeroPeerId.to_safe = List.replicate 20 '?' ∧
      fourBytePeerId.to_safe.length = 5 :=
  ⟨List.length_map _ _, by decide, by decide⟩

/-- C2: the fallible constructor returns `BadPeerIdLengthError` exactly on
inputs whose length is not 20, and the error carries exactly the input's
length; no sequence of length 20 produces this error, and an erroring input
produces no `PeerId`. -/
theorem try_from_error_iff (s : List Nat) (e : BadPeerIdLengthError) :
    PeerId.try_from s = Except.error e ↔ s.length ≠ 20 ∧ e = ⟨s.length⟩ := by
  unfold PeerId.try_from
  split
  · rename_i h
    simp [h]
  · rename_i h
    simp [h, eq_comm]

/-- C3: on every byte sequence of length exactly 20, the fallible
constructor succeeds with a `PeerId` whose bytes equal those produced by the
infallible constructor `From<[u8; 20]>` on the same bytes. -/
theorem try_from_ok (s : List Nat) (h : s.length = 20) :
    PeerId.try_from s = Except.ok (PeerId.from20 ⟨s, h⟩) := by
  unfold PeerId.try_from
  rw [dif_pos h]
  rfl

/-- Witness for C3 at the concrete all-zero slice of length 20. -/
theorem try_from_ok_witness :
    (List.replicate 20 0).length = 20 ∧
      PeerId.try_from (List.replicate 20 0) =
        Except.ok (PeerId.from20 ⟨List.replicate 20 0, by decide⟩) :=
  ⟨by decide, try_from_ok (List.replicate 20 0) (by decide)⟩

/-- C4: constructing a `PeerId` from a 20-byte array, through either
`From<[u8; 20]>` or `From<&[u8; 20]>`, and reading the bytes back through
`as_ref` yields exactly the original array. -/
theorem from_as_ref_roundtrip (b : Array20) :
    (PeerId.from20 b).as_ref = b ∧ (PeerId.from_ref b).as_ref = b :=
  ⟨rfl, rfl⟩

/-- C6: the `Display` implementation renders exactly `to_safe`. -/
theorem display_eq_to_safe (p : PeerId) : p.display = p.to_safe := rfl

/-- C8 counterexample: the derive attribute on `PeerId` lists neither
`PartialEq` nor `Eq`, so the type provides no equality operation (the claim
asserts one is provided). -/
theorem peerId_no_eq_operation :
    PeerId.derivedTraits.contains "PartialEq" = false ∧
      PeerId.derivedTraits.contains "Eq" = false := by decide

/-- C8 amended: two `PeerId` values are identical exactly when their byte
sequences are byte-wise equal, but the type itself derives no equality
operation (`PartialEq` is absent from its derive list). -/
theorem peerId_identity_bytewise :
    (∀ a b : PeerId, a = b ↔ a.bytes = b.bytes) ∧
      PeerId.derivedTraits.contains "PartialEq" = false :=
  ⟨fun _ _ => PeerId.eq_iff_bytes, by decide⟩

/-- C9: the textual form of `BadPeerIdLengthError` contains the decimal
representation of the stored length and the phrase stating that a 20-byte
slice was expected; two errors are equal exactly when their stored lengths
are equal. -/
theorem bad_length_error_spec (e : BadPeerIdLengthError) :
    (∃ a b : String, e.display = a ++ (Nat.repr e.length ++ b)) ∧
      (∃ a b : String,
        e.display = a ++ ("expected a 20 bytes long slice" ++ b)) ∧
      ∀ e2 : BadPeerIdLengthError, e = e2 ↔ e.length = e2.length := by
  refine ⟨⟨"Invalid Peer Id length, expected a 20 bytes long slice, got ",
      " bytes", rfl⟩,
    ⟨"Invalid Peer Id length, ",
      ", got " ++ (Nat.repr e.length ++ " bytes"), ?_⟩, ?_⟩
  · show ("Invalid Peer Id length, expected a 20 bytes long slice, got " ++
        (Nat.repr e.length ++ " bytes") : String) = _
    rw [show ("Invalid Peer Id length, expected a 20 bytes long slice, got " :
        String) =
      "Invalid Peer Id length, " ++ ("expected a 20 bytes long slice" ++
        ", got ") from rfl]
    rw [String.append_assoc, String.append_assoc]
  · intro e2
    cases e with
    | mk n =>
      cases e2 with
      | mk m =>
        simp [BadPeerIdLengthError.mk.injEq]

lemma utf8DecodeLossy_length_bounds (l : List Nat) :
    (utf8DecodeLossy l).length ≤ l.length ∧
      l.length ≤ 4 * (utf8DecodeLossy l).length := by
  induction l using utf8DecodeLossy.induct with
  | case1 => simp [utf8DecodeLossy]
  | @case2 b0 rest h ih =>
      rw [utf8DecodeLossy.eq_def]
      simp only [if_pos h, List.length_cons]
      omega
  | @case3 b0 hn h2 =>
      rw [utf8DecodeLossy.eq_def]
      simp only [if_neg hn, if_pos h2, List.length_cons, List.length_nil]
      omega
  | @case4 b0 hn h2 b1 rest1 hc ih =>
      rw [utf8DecodeLossy.eq_def]
      simp only [if_neg hn, if_pos h2, if_pos hc, List.length_cons]
      omega
  | @case5 b0 hn h2 b1 rest1 hc ih =>
      rw [utf8DecodeLossy.eq_def]
      simp only [if_neg hn, if_pos h2, if_neg hc, List.length_cons] at ih ⊢
      omega
  | @case6 b0 hn hn2 h3 =>
      rw [utf8DecodeLossy.eq_def]
      simp only [if_neg hn, if_neg hn2, if_pos h3, List.length_cons,
        List.length_nil]
      omega
  | @case7 b0 hn hn2 h3 b1 hc3 =>
      rw [utf8DecodeLossy.eq_def]
      simp only [if_neg hn, if_neg hn2, if_pos h3, if_pos hc3,
        List.length_cons, List.length_nil]
      omega
  | @case8 b0 hn hn2 h3 b1 hc3 b2 rest2 hc ih =>
      rw [utf8DecodeLossy.eq_def]
      simp only [if_neg hn, if_neg hn2, if_pos h3, if_pos hc3, if_pos hc,
        List.length_cons]
      omega
  | @case9 b0 hn hn2 h3 b1 hc3 b2 rest2 hc ih =>
      rw [utf8DecodeLossy.eq_def]
      simp only [if_neg hn, if_neg hn2, if_pos h3, if_pos hc3, if_neg hc,
        List.length_cons] at ih ⊢
      omega
  | @case10 b0 hn hn2 h3 b1 rest1 hc3 ih =>
      rw [utf8DecodeLossy.eq_def]
      simp only [if_neg hn, if_neg hn2, if_pos h3, if_neg hc3,
        List.length_cons] at ih ⊢
      omega
  | @case11 b0 hn hn2 hn3 h4 =>
      rw [utf8DecodeLossy.eq_def]
      simp only [if_neg hn, if_neg hn2, if_neg hn3, if_pos h4,
        List.length_cons, List.length_nil]
      omega
  | @case12 b0 hn hn2 hn3 h4 b1 hc4 =>
      rw [utf8DecodeLossy.eq_def]
      simp only [if_neg hn, if_neg hn2, if_neg hn3, if_pos h4, if_pos hc4,
        List.length_cons, List.length_nil]
      omega
  | @case13 b0 hn hn2 hn3 h4 b1 hc4 b2 hc =>
      rw [utf8DecodeLossy.eq_def]
      simp only [if_neg hn, if_neg hn2, if_neg hn3, if_pos h4, if_pos hc4,
        if_pos hc, List.length_cons, List.length_nil]
      omega
  | @case14 b0 hn hn2 hn3 h4 b1 hc4 b2 hc b3 rest3 hc2 ih =>
      rw [utf8DecodeLossy.eq_def]
      simp only [if_neg hn, if_neg hn2, if_neg hn3, if_pos h4, if_pos hc4,
        if_pos hc, if_pos hc2, List.length_cons]
      omega
  | @case15 b0 hn hn2 hn3 h4 b1 hc4 b2 hc b3 rest3 hc2 ih =>
      rw [utf8DecodeLossy.eq_def]
      simp only [if_neg hn, if_neg hn2, if_neg hn3, if_pos h4, if_pos hc4,
        if_pos hc, if_neg hc2, List.length_cons] at ih ⊢
      omega
  | @case16 b0 hn hn2 hn3 h4 b1 hc4 b2 rest2 hc ih =>
      rw [utf8DecodeLossy.eq_def]
      simp only [if_neg hn, if_neg hn2, if_neg hn3, if_pos h4, if_pos hc4,
        if_neg hc, List.length_cons] at ih ⊢
      omega
  | @case17 b0 hn hn2 hn3 h4 b1 rest1 hc4 ih =>
      rw [utf8DecodeLossy.eq_def]
      simp only [if_neg hn, if_neg hn2, if_neg hn3, if_pos h4, if_neg hc4,
        List.length_cons] at ih ⊢
      omega
  | @case18 b0 rest hn hn2 hn3 hn4 ih =>
      rw [utf8DecodeLossy.eq_def]
      simp only [if_neg hn, if_neg hn2, if_neg hn3, if_neg hn4,
        List.length_cons]
      omega

/-- C10: the safe rendering of every peer ID has at least 5 and at most 20
characters: each decoded character consumes between 1 and 4 of the 20
input bytes. -/
theorem to_safe_length_in_range (p : PeerId) :
    5 ≤ p.to_safe.length ∧ p.to_safe.length ≤ 20 := by
  have hb := utf8DecodeLossy_length_bounds p.bytes
  have hl : p.bytes.length = 20 := p.len_eq
  have hm : p.to_safe.length = (utf8DecodeLossy p.bytes).length :=
    List.length_map _ _
  omega

end TdynePeerId
